import Mathlib

/-!
# pa-volume-watcher

A shallow embedding of `pa_volume_watcher.c`: the process state `app_t`, the five
PulseAudio callbacks as functions from the state and the callback arguments to the new
state and the list of library calls they make, and the properties of the callback state
machine.
-/

namespace PaVolumeWatcher

/-! ## C strings and `strncmp` -/

/-- A C string, given by the bytes stored before its terminating NUL. -/
structure CStr where
  bytes : List Nat
  is_text : ∀ b ∈ bytes, 0 < b ∧ b < 256
deriving DecidableEq

/-- The constant `SINK_NAME_MAX` of the source. -/
def SINK_NAME_MAX : Nat := 256

/-- The C library's `strncmp` on two NUL-terminated byte sequences: at most `n` positions
are compared, the comparison stops at the first difference or at a NUL, and reading at the
end of a list reads the terminator `0`. -/
def strncmp (s1 s2 : List Nat) : Nat → Int
  | 0 => 0
  | n + 1 =>
    let c1 := s1.headD 0
    let c2 := s2.headD 0
    if c1 ≠ c2 then (c1 : Int) - (c2 : Int)
    else if c1 = 0 then 0
    else strncmp s1.tail s2.tail n

/-! ## PulseAudio types and constants used by the program -/

/-- The connection states of `pa_context_state_t`. -/
inductive pa_context_state_t
  | UNCONNECTED
  | CONNECTING
  | AUTHORIZING
  | SETTING_NAME
  | READY
  | FAILED
  | TERMINATED
deriving DecidableEq, Repr

/-- The constant `PA_SUBSCRIPTION_EVENT_FACILITY_MASK` of the PulseAudio headers. -/
def PA_SUBSCRIPTION_EVENT_FACILITY_MASK : Nat := 0x000F
/-- The constant `PA_SUBSCRIPTION_EVENT_TYPE_MASK` of the PulseAudio headers. -/
def PA_SUBSCRIPTION_EVENT_TYPE_MASK : Nat := 0x0030
/-- The constant `PA_SUBSCRIPTION_EVENT_SINK` of the PulseAudio headers. -/
def PA_SUBSCRIPTION_EVENT_SINK : Nat := 0x0000
/-- The constant `PA_SUBSCRIPTION_EVENT_SERVER` of the PulseAudio headers. -/
def PA_SUBSCRIPTION_EVENT_SERVER : Nat := 0x0007
/-- The constant `PA_SUBSCRIPTION_EVENT_NEW` of the PulseAudio headers. -/
def PA_SUBSCRIPTION_EVENT_NEW : Nat := 0x0000
/-- The constant `PA_SUBSCRIPTION_EVENT_CHANGE` of the PulseAudio headers. -/
def PA_SUBSCRIPTION_EVENT_CHANGE : Nat := 0x0010
/-- The constant `PA_SUBSCRIPTION_EVENT_REMOVE` of the PulseAudio headers. -/
def PA_SUBSCRIPTION_EVENT_REMOVE : Nat := 0x0020
/-- The constant `PA_SUBSCRIPTION_MASK_SINK` of the PulseAudio headers. -/
def PA_SUBSCRIPTION_MASK_SINK : Nat := 0x0001
/-- The constant `PA_SUBSCRIPTION_MASK_SERVER` of the PulseAudio headers. -/
def PA_SUBSCRIPTION_MASK_SERVER : Nat := 0x0080
/-- The constant `PA_VOLUME_NORM` of the PulseAudio headers, the amplitude of 100%. -/
def PA_VOLUME_NORM : Nat := 0x10000

/-- Modelled from the spec: `pa_sink_info` is declared in the PulseAudio headers, not in
this repository. The fields are those the program reads, as the spec's device snapshot
gives them: the device name, the averaged amplitude (what `pa_cvolume_avg(&info->volume)`
returns, a 32-bit unsigned `pa_volume_t`) and the mute flag (an `int` that is 0 or 1). -/
structure pa_sink_info where
  name : CStr
  volume_avg : Nat
  mute : Int
  volume_is_u32 : volume_avg < 4294967296
  mute_is_flag : mute = 0 ∨ mute = 1
deriving DecidableEq

/-! ## Process state and library calls -/

/-- The struct `app` of the source. The `mainloop` field is a handle that never changes
after `main` has set it; calls through it appear as `Effect.pa_mainloop_quit`. A null
`default_sink` is `none`. -/
structure app_t where
  default_sink : Option CStr
  is_subscribed : Int
deriving DecidableEq

/-- The five callbacks of the program, as they are passed to the library. -/
inductive Callback
  | state
  | success
  | subscription_event
  | server_info
  | sink_info
deriving DecidableEq, Repr

/-- The calls a callback makes into PulseAudio and the C library, in program order. -/
inductive Effect
  | pa_context_get_server_info (cb : Callback)
  | pa_context_set_subscribe_callback (cb : Callback)
  | pa_context_subscribe (mask : Nat) (cb : Callback)
  | pa_context_get_sink_info_by_name (name : CStr) (cb : Callback)
  | pa_mainloop_quit (retval : Int)
  | fprintf_stderr (text : String)
  | printf_stdout (text : String)
  | fflush_stdout
deriving DecidableEq

/-- The state `main` builds before it connects: no default sink, not subscribed. -/
def initial_app : app_t := { default_sink := none, is_subscribed := 0 }

/-! ## Number formatting -/

/-- The integer nearest to `num / den`, an exact half going to the even neighbour. -/
def round_half_even (num den : Nat) : Nat :=
  let q := num / den
  let r := num % den
  if 2 * r < den then q
  else if den < 2 * r then q + 1
  else if q % 2 = 0 then q
  else q + 1

/-- What `printf` writes for the conversion `%0.f` applied to the double `num / den`, for a
non-negative value: the value rounded to zero decimals in the default rounding direction
of the C library (to nearest, an exact half to even), in decimal. In `sink_info_callback`
the double is exact: `volume` is below `2^32`, so `volume * 100` is below `2^53`, and
`PA_VOLUME_NORM` is a power of two. -/
def printf_0f (num den : Nat) : String :=
  toString (round_half_even num den)

/-- What `printf` writes for the conversion `%d`. -/
def printf_d (i : Int) : String :=
  toString i

/-! ## The callbacks -/

/-- The function `state_callback`; `state` is what `pa_context_get_state(context)` returns. -/
def state_callback (app : app_t) (state : pa_context_state_t) : app_t × List Effect :=
  match state with
  | .READY => (app, [.pa_context_get_server_info .server_info])
  | .FAILED =>
    (app, [.fprintf_stderr "PulseAudio connection failed\n", .pa_mainloop_quit 1])
  | _ => (app, [])

/-- The function `subscription_event_callback`. The `case` for the sink facility falls
through to `default`, which only breaks. -/
def subscription_event_callback (app : app_t) (event : Nat) (_index : Nat) :
    app_t × List Effect :=
  if event &&& PA_SUBSCRIPTION_EVENT_TYPE_MASK = PA_SUBSCRIPTION_EVENT_CHANGE then
    if event &&& PA_SUBSCRIPTION_EVENT_FACILITY_MASK = PA_SUBSCRIPTION_EVENT_SERVER then
      (app, [.pa_context_get_server_info .server_info])
    else if event &&& PA_SUBSCRIPTION_EVENT_FACILITY_MASK = PA_SUBSCRIPTION_EVENT_SINK then
      match app.default_sink with
      | some d => (app, [.pa_context_get_sink_info_by_name d .sink_info])
      | none => (app, [])
    else (app, [])
  else (app, [])

/-- The test that opens `server_info_callback`: a default sink is stored and `strncmp`
finds it equal to the reported name within `SINK_NAME_MAX` bytes. -/
def default_sink_unchanged (app : app_t) (default_sink_name : CStr) : Bool :=
  match app.default_sink with
  | some d => strncmp d.bytes default_sink_name.bytes SINK_NAME_MAX == 0
  | none => false

/-- The function `server_info_callback`; `default_sink_name` is `info->default_sink_name`
and `malloc_ok` tells whether `malloc` returns a buffer. The old name is freed before the
allocation and `app->default_sink` receives the result of `malloc` directly, so a failed
allocation leaves it null. The `memcpy` of `strlen + 1` bytes stores the whole name. -/
def server_info_callback (app : app_t) (default_sink_name : CStr) (malloc_ok : Bool) :
    app_t × List Effect :=
  if default_sink_unchanged app default_sink_name then (app, [])
  else if !malloc_ok then
    ({ app with default_sink := none },
      [.fprintf_stderr "Could not allocate memory for sink name\n", .pa_mainloop_quit 1])
  else
    let app1 : app_t := { app with default_sink := some default_sink_name }
    if app1.is_subscribed = 0 then
      ({ app1 with is_subscribed := 1 },
        [.pa_context_set_subscribe_callback .subscription_event,
         .pa_context_subscribe (PA_SUBSCRIPTION_MASK_SINK ||| PA_SUBSCRIPTION_MASK_SERVER)
           .success,
         .pa_context_get_sink_info_by_name default_sink_name .sink_info])
    else
      (app1, [.pa_context_get_sink_info_by_name default_sink_name .sink_info])

/-- The function `sink_info_callback`. With `eol` clear and no default sink stored the
source passes a null pointer to `strncmp`, which has no defined behaviour: the result is
`none`. -/
def sink_info_callback (app : app_t) (info : pa_sink_info) (eol : Int) :
    Option (app_t × List Effect) :=
  if eol ≠ 0 then some (app, [])
  else
    match app.default_sink with
    | none => none
    | some d =>
      if strncmp d.bytes info.name.bytes SINK_NAME_MAX ≠ 0 then some (app, [])
      else
        let volume := info.volume_avg
        some (app,
          [.printf_stdout ("volume = " ++ printf_0f (volume * 100) PA_VOLUME_NORM
              ++ " muted = " ++ printf_d info.mute ++ "\n"),
           .fflush_stdout])

/-- The function `success_callback`. -/
def success_callback (app : app_t) (success : Int) : app_t × List Effect :=
  if success = 0 then (app, [.pa_mainloop_quit 1]) else (app, [])

/-! ## Runs of the callback state machine -/

/-- One invocation of a callback by the main loop, with its arguments. -/
inductive Event
  | state (s : pa_context_state_t)
  | subscription (event : Nat) (index : Nat)
  | server_info (default_sink_name : CStr) (malloc_ok : Bool)
  | sink_info (info : pa_sink_info) (eol : Int)
  | success (success : Int)
deriving DecidableEq

/-- The callback an event invokes. -/
def step (app : app_t) : Event → Option (app_t × List Effect)
  | .state s => some (state_callback app s)
  | .subscription event index => some (subscription_event_callback app event index)
  | .server_info name malloc_ok => some (server_info_callback app name malloc_ok)
  | .sink_info info eol => sink_info_callback app info eol
  | .success success => some (success_callback app success)

/-- Runs the callbacks of `evs` one after the other from `app`. The result is the final
state and, for each event in order, the calls its callback made; it is `none` when some
callback in the sequence has no defined behaviour. -/
def run (app : app_t) : List Event → Option (app_t × List (List Effect))
  | [] => some (app, [])
  | e :: evs =>
    match step app e with
    | none => none
    | some (app1, out) =>
      match run app1 evs with
      | none => none
      | some (app2, outs) => some (app2, out :: outs)

/-- The lines written to standard output by a list of calls. -/
def stdout_lines : List Effect → List String
  | [] => []
  | .printf_stdout text :: rest => text :: stdout_lines rest
  | _ :: rest => stdout_lines rest

/-- The names of the device-state queries among a list of calls. -/
def sink_queries : List Effect → List CStr
  | [] => []
  | .pa_context_get_sink_info_by_name name _ :: rest => name :: sink_queries rest
  | _ :: rest => sink_queries rest

/-- The masks of the subscribe requests among a list of calls. -/
def subscribe_requests : List Effect → List Nat
  | [] => []
  | .pa_context_subscribe mask _ :: rest => mask :: subscribe_requests rest
  | _ :: rest => subscribe_requests rest

/-- The statuses of the termination requests among a list of calls. -/
def quit_requests : List Effect → List Int
  | [] => []
  | .pa_mainloop_quit retval :: rest => retval :: quit_requests rest
  | _ :: rest => quit_requests rest

/-- The C string of one byte `b`. -/
def CStr.single (b : Nat) (h : 0 < b ∧ b < 256) : CStr :=
  ⟨[b], by intro x hx; simp at hx; subst hx; exact h⟩

/-- The device name "A". -/
def name_A : CStr := CStr.single 65 (by decide)

/-- The device name "B". -/
def name_B : CStr := CStr.single 66 (by decide)

/-- The C string made of `k` copies of the byte `b`. -/
def CStr.rep (k b : Nat) (h : 0 < b ∧ b < 256) : CStr :=
  ⟨List.replicate k b, by intro x hx; rw [List.eq_of_mem_replicate hx]; exact h⟩

/-- A device name of 256 letters `a`. -/
def name_256 : CStr := CStr.rep 256 97 (by decide)

/-- A device name of 257 letters `a`. -/
def name_257 : CStr := CStr.rep 257 97 (by decide)

/-- Whether the event is a call of `server_info_callback`. -/
def Event.is_server_info : Event → Bool
  | .server_info _ _ => true
  | _ => false

/-- Whether allocation succeeds in the event: false only for a call of
`server_info_callback` in which `malloc` fails. -/
def Event.alloc_ok : Event → Bool
  | .server_info _ malloc_ok => malloc_ok
  | _ => true

/-- Whether the event is a call of `sink_info_callback` with the end-of-results flag
clear, the one call that reads `app->default_sink` without a null check. -/
def Event.is_snapshot : Event → Bool
  | .sink_info _ eol => eol == 0
  | _ => false

/-- The calls made when `server_info_callback` accepts a new default name in a state
whose subscription flag is `is_subscribed`. -/
def accepted_calls (is_subscribed : Int) (name : CStr) : List Effect :=
  (if is_subscribed = 0 then
    [Effect.pa_context_set_subscribe_callback .subscription_event,
     Effect.pa_context_subscribe (PA_SUBSCRIPTION_MASK_SINK ||| PA_SUBSCRIPTION_MASK_SERVER)
       .success]
   else []) ++ [Effect.pa_context_get_sink_info_by_name name .sink_info]

/-- The snapshot of scenario A: device "A" at amplitude 32768, not muted. -/
def snapshot_A_50 : pa_sink_info := ⟨name_A, 32768, 0, by decide, by decide⟩

/-- The snapshot of scenario B: device "A" at amplitude 52429, not muted. -/
def snapshot_A_80 : pa_sink_info := ⟨name_A, 52429, 0, by decide, by decide⟩

/-- The snapshot of scenario C: device "B" at amplitude 19661, muted. -/
def snapshot_B_30 : pa_sink_info := ⟨name_B, 19661, 1, by decide, by decide⟩

/-- A snapshot of device "A" at the amplitude 8192, one eighth of `PA_VOLUME_NORM`. -/
def snapshot_A_eighth : pa_sink_info := ⟨name_A, 8192, 0, by decide, by decide⟩

/-- Scenarios A to C as one sequence of callbacks; `i` and `j` are the object indices
carried by the two change events and `stray` is the late snapshot that ends the trace. -/
def scenario_trace (i j : Nat) (stray : pa_sink_info) : List Event :=
  [.state .READY,
   .server_info name_A true,
   .sink_info snapshot_A_50 0,
   .subscription (PA_SUBSCRIPTION_EVENT_SINK ||| PA_SUBSCRIPTION_EVENT_CHANGE) i,
   .sink_info snapshot_A_80 0,
   .subscription (PA_SUBSCRIPTION_EVENT_SERVER ||| PA_SUBSCRIPTION_EVENT_CHANGE) j,
   .server_info name_B true,
   .sink_info snapshot_B_30 0,
   .sink_info stray 0]

/-! ## Lemmas on `strncmp` -/

theorem strncmp_self (s : List Nat) (n : Nat) : strncmp s s n = 0 := by
  induction n generalizing s with
  | zero => rfl
  | succ n ih =>
    unfold strncmp
    simp only [ne_eq, not_true_eq_false, if_false]
    split
    · rfl
    · exact ih _

theorem strncmp_eq_zero_iff (s1 s2 : List Nat) (h1 : ∀ b ∈ s1, 0 < b) (h2 : ∀ b ∈ s2, 0 < b)
    (n : Nat) : strncmp s1 s2 n = 0 ↔ s1.take n = s2.take n := by
  induction n generalizing s1 s2 with
  | zero => simp [strncmp]
  | succ n ih =>
    cases s1 with
    | nil =>
      cases s2 with
      | nil => simp [strncmp]
      | cons y ys =>
        have hy : 0 < y := h2 y (by simp)
        have hy0 : ¬ (0 = y) := by omega
        simp [strncmp, hy0]
        omega
    | cons x xs =>
      have hx : 0 < x := h1 x (by simp)
      cases s2 with
      | nil =>
        have hx0 : ¬ (x = 0) := by omega
        simp [strncmp, hx0]
      | cons y ys =>
        by_cases hxy : x = y
        · subst hxy
          have hx0 : ¬ (x = 0) := by omega
          have := ih xs ys (fun b hb => h1 b (by simp [hb])) (fun b hb => h2 b (by simp [hb]))
          simpa [strncmp, hx0] using this
        · have hne : ¬ ((x : Int) - (y : Int) = 0) := by omega
          simp [strncmp, hxy, hne]

theorem cstr_strncmp_eq_zero_iff (a b : CStr) (n : Nat) :
    strncmp a.bytes b.bytes n = 0 ↔ a.bytes.take n = b.bytes.take n :=
  PaVolumeWatcher.strncmp_eq_zero_iff a.bytes b.bytes (fun x hx => (a.is_text x hx).1)
    (fun x hx => (b.is_text x hx).1) n

/-! ## Race guard of `sink_info_callback` -/

/-- C1 (as stated, refuted): with the 256-byte name stored as default, a snapshot whose
name is a different, 257-byte string that agrees with it on the first 256 bytes is not
discarded: `sink_info_callback` writes a line for it. -/
theorem race_safety_long_names_counterexample :
    name_257 ≠ name_256 ∧
    sink_info_callback ⟨some name_256, 1⟩ ⟨name_257, 32768, 0, by decide, by decide⟩ 0 =
      some (⟨some name_256, 1⟩,
        [.printf_stdout "volume = 50 muted = 0\n", .fflush_stdout]) := by
  constructor
  · intro h
    have hlen := congrArg (fun s => s.bytes.length) h
    simp only [name_257, name_256, CStr.rep, List.length_replicate] at hlen
    omega
  · have h : strncmp name_256.bytes name_257.bytes SINK_NAME_MAX = 0 := by
      rw [cstr_strncmp_eq_zero_iff]
      simp only [name_257, name_256, CStr.rep, SINK_NAME_MAX, List.take_replicate]
      rfl
    have hline : "volume = " ++ printf_0f (32768 * 100) PA_VOLUME_NORM ++ " muted = "
        ++ printf_d 0 ++ "\n" = "volume = 50 muted = 0\n" := by decide
    simp only [sink_info_callback, h, hline]
    rfl

theorem race_guard_first_bytes (app : app_t) (d : CStr) (info : pa_sink_info) (eol : Int)
    (hd : app.default_sink = some d)
    (hne : info.name.bytes.take SINK_NAME_MAX ≠ d.bytes.take SINK_NAME_MAX) :
    sink_info_callback app info eol = some (app, []) := by
  have h : strncmp d.bytes info.name.bytes SINK_NAME_MAX ≠ 0 := by
    rw [Ne, cstr_strncmp_eq_zero_iff]
    exact fun h => hne h.symm
  unfold sink_info_callback
  split
  · rfl
  · rw [hd]; simp only [h, ne_eq, not_false_eq_true, if_true]

/-- C1 (amended): in every state with a stored default name `d`, a snapshot whose name
differs from `d` somewhere in the first `SINK_NAME_MAX` = 256 bytes makes
`sink_info_callback` return with the state unchanged and without any call, so no line is
written; this holds whatever the end-of-results flag is. -/
theorem race_safety (app : app_t) (d : CStr) (info : pa_sink_info) (eol : Int)
    (hd : app.default_sink = some d)
    (hne : info.name.bytes.take SINK_NAME_MAX ≠ d.bytes.take SINK_NAME_MAX) :
    sink_info_callback app info eol = some (app, []) ∧
    ∀ app1 out, sink_info_callback app info eol = some (app1, out) →
      stdout_lines out = [] := by
  have h := race_guard_first_bytes app d info eol hd hne
  refine ⟨h, ?_⟩
  intro app1 out h1
  rw [h] at h1
  simp only [Option.some.injEq, Prod.mk.injEq] at h1
  obtain ⟨-, rfl⟩ := h1
  rfl

/-- Witness of `race_safety`: default "A", snapshot for "B". -/
theorem race_safety_witness :
    sink_info_callback ⟨some name_A, 1⟩ ⟨name_B, 32768, 0, by decide, by decide⟩ 0 =
      some (⟨some name_A, 1⟩, []) :=
  (race_safety ⟨some name_A, 1⟩ name_A ⟨name_B, 32768, 0, by decide, by decide⟩ 0 rfl
    (by decide)).1

/-! ## Default-device tracking in `server_info_callback` -/

theorem default_sink_unchanged_self (s : CStr) (k : Int) :
    default_sink_unchanged ⟨some s, k⟩ s = true := by
  simp [default_sink_unchanged, strncmp_self]

theorem server_info_callback_same (s : CStr) (k : Int) (malloc_ok : Bool) :
    server_info_callback ⟨some s, k⟩ s malloc_ok = (⟨some s, k⟩, []) := by
  simp [server_info_callback, default_sink_unchanged_self]

theorem server_info_callback_accept (app : app_t) (name : CStr)
    (h : default_sink_unchanged app name = false) :
    server_info_callback app name true =
      (⟨some name, 1⟩, accepted_calls app.is_subscribed name) ∨
    (app.is_subscribed ≠ 0 ∧ server_info_callback app name true =
      (⟨some name, app.is_subscribed⟩, accepted_calls app.is_subscribed name)) := by
  by_cases hs : app.is_subscribed = 0
  · left
    simp [server_info_callback, h, hs, accepted_calls]
  · right
    refine ⟨hs, ?_⟩
    simp [server_info_callback, h, hs, accepted_calls]

theorem run_replicate_same (s : CStr) (k : Int) (n : Nat) :
    run ⟨some s, k⟩ (List.replicate n (Event.server_info s true)) =
      some (⟨some s, k⟩, List.replicate n []) := by
  induction n with
  | zero => rfl
  | succ n ih =>
    simp only [List.replicate_succ, run, step, server_info_callback_same, ih]

/-- C2: for every name `s` and every `n ≥ 1`, running `n` consecutive calls of
`server_info_callback` that all report `s` from the initial state, with allocation
succeeding, is defined; the first call registers the event handler, subscribes and
dispatches the one device-state query (for `s`), every later call makes no call at all, so
one query is dispatched in total and nothing is written; and in the state reached after
the first call a further call reporting `s` returns the state unchanged with no call. -/
theorem server_info_idempotent (s : CStr) (n : Nat) (hn : 1 ≤ n) :
    run initial_app (List.replicate n (Event.server_info s true)) =
      some (⟨some s, 1⟩,
        [.pa_context_set_subscribe_callback .subscription_event,
         .pa_context_subscribe 0x81 .success,
         .pa_context_get_sink_info_by_name s .sink_info] :: List.replicate (n - 1) []) ∧
    (∀ app outs, run initial_app (List.replicate n (Event.server_info s true)) =
        some (app, outs) →
      sink_queries outs.flatten = [s] ∧ stdout_lines outs.flatten = []) ∧
    server_info_callback ⟨some s, 1⟩ s true = (⟨some s, 1⟩, []) := by
  obtain ⟨m, rfl⟩ : ∃ m, n = m + 1 := ⟨n - 1, by omega⟩
  have hrun : run initial_app (List.replicate (m + 1) (Event.server_info s true)) =
      some (⟨some s, 1⟩,
        [.pa_context_set_subscribe_callback .subscription_event,
         .pa_context_subscribe 0x81 .success,
         .pa_context_get_sink_info_by_name s .sink_info] :: List.replicate m []) := by
    have hfirst : server_info_callback initial_app s true =
        (⟨some s, 1⟩, [.pa_context_set_subscribe_callback .subscription_event,
         .pa_context_subscribe 0x81 .success,
         .pa_context_get_sink_info_by_name s .sink_info]) := by
      simp [server_info_callback, default_sink_unchanged, initial_app,
        PA_SUBSCRIPTION_MASK_SINK, PA_SUBSCRIPTION_MASK_SERVER]
    simp only [List.replicate_succ, run, step, hfirst, run_replicate_same]
  refine ⟨by simpa using hrun, ?_, server_info_callback_same s 1 true⟩
  intro app outs h
  rw [hrun] at h
  simp only [Option.some.injEq, Prod.mk.injEq] at h
  obtain ⟨-, rfl⟩ := h
  have hnil : (List.replicate m ([] : List Effect)).flatten = [] := by
    induction m with
    | zero => rfl
    | succ m ih => simp [List.replicate_succ]
  simp [List.flatten_cons, hnil, sink_queries, stdout_lines]

/-- Witness of `server_info_idempotent`: three notifications for "A". -/
theorem server_info_idempotent_witness :
    run initial_app (List.replicate 3 (Event.server_info name_A true)) =
      some (⟨some name_A, 1⟩,
        [.pa_context_set_subscribe_callback .subscription_event,
         .pa_context_subscribe 0x81 .success,
         .pa_context_get_sink_info_by_name name_A .sink_info] :: List.replicate (3 - 1) []) :=
  (server_info_idempotent name_A 3 (by decide)).1

/-- C4: in every state, a call of `server_info_callback` that is accepted as a change of
default (the reported name is not found unchanged, and allocation succeeds) makes exactly
the calls: registration and subscription when not yet subscribed, then one device-state
query; so exactly one `pa_context_get_sink_info_by_name` is dispatched, its name is the
reported name and its completion handler is `sink_info_callback`. -/
theorem single_dispatch_per_change (app : app_t) (name : CStr)
    (h : default_sink_unchanged app name = false) :
    (server_info_callback app name true).2 = accepted_calls app.is_subscribed name ∧
    sink_queries (server_info_callback app name true).2 = [name] ∧
    (server_info_callback app name true).2.filter
        (fun c => match c with
          | .pa_context_get_sink_info_by_name _ _ => true
          | _ => false) =
      [.pa_context_get_sink_info_by_name name .sink_info] := by
  have hcalls : (server_info_callback app name true).2 =
      accepted_calls app.is_subscribed name := by
    rcases server_info_callback_accept app name h with h1 | ⟨-, h1⟩ <;> rw [h1]
  rw [hcalls]
  refine ⟨rfl, ?_, ?_⟩ <;>
  · unfold accepted_calls
    split <;> simp [sink_queries]

/-- Witness of `single_dispatch_per_change`: default "A" replaced by "B". -/
theorem single_dispatch_per_change_witness :
    sink_queries (server_info_callback ⟨some name_A, 1⟩ name_B true).2 = [name_B] :=
  (single_dispatch_per_change ⟨some name_A, 1⟩ name_B (by decide)).2.1

/-! ## One-time activation of the subscription -/

theorem subscribe_requests_append (a b : List Effect) :
    subscribe_requests (a ++ b) = subscribe_requests a ++ subscribe_requests b := by
  induction a with
  | nil => rfl
  | cons c a ih => cases c <;> simp [subscribe_requests, ih]

theorem step_subscribed (app : app_t) (e : Event) (hsub : app.is_subscribed = 1)
    (hd : app.default_sink.isSome = true) (he : e.alloc_ok = true) :
    ∃ app1 out, step app e = some (app1, out) ∧ app1.is_subscribed = 1 ∧
      app1.default_sink.isSome = true ∧ subscribe_requests out = [] := by
  obtain ⟨d, k⟩ := app
  simp only at hsub hd
  subst hsub
  obtain ⟨d, rfl⟩ := Option.isSome_iff_exists.mp hd
  cases e with
  | state s => cases s <;> exact ⟨_, _, rfl, rfl, rfl, rfl⟩
  | subscription event index =>
    refine ⟨⟨some d, 1⟩, (subscription_event_callback ⟨some d, 1⟩ event index).2, ?_, rfl,
      rfl, ?_⟩
    · simp only [step, subscription_event_callback]
      split_ifs <;> rfl
    · simp only [subscription_event_callback]
      split_ifs <;> rfl
  | server_info name malloc_ok =>
    simp only [Event.alloc_ok] at he
    subst he
    by_cases hu : default_sink_unchanged ⟨some d, 1⟩ name = true
    · exact ⟨⟨some d, 1⟩, [], by simp [step, server_info_callback, hu], rfl, rfl, rfl⟩
    · exact ⟨⟨some name, 1⟩, [.pa_context_get_sink_info_by_name name .sink_info],
        by simp [step, server_info_callback, hu], rfl, rfl, rfl⟩
  | sink_info info eol =>
    by_cases h0 : eol = 0
    · by_cases hc : strncmp d.bytes info.name.bytes SINK_NAME_MAX = 0
      · exact ⟨⟨some d, 1⟩,
          [.printf_stdout ("volume = " ++ printf_0f (info.volume_avg * 100) PA_VOLUME_NORM
              ++ " muted = " ++ printf_d info.mute ++ "\n"), .fflush_stdout],
          by simp only [step, sink_info_callback, h0, hc]; rfl, rfl, rfl, rfl⟩
      · exact ⟨⟨some d, 1⟩, [], by simp [step, sink_info_callback, h0, hc], rfl, rfl, rfl⟩
    · exact ⟨⟨some d, 1⟩, [], by simp [step, sink_info_callback, h0], rfl, rfl, rfl⟩
  | success success =>
    by_cases h0 : success = 0
    · exact ⟨⟨some d, 1⟩, [.pa_mainloop_quit 1], by simp [step, success_callback, h0], rfl,
        rfl, rfl⟩
    · exact ⟨⟨some d, 1⟩, [], by simp [step, success_callback, h0], rfl, rfl, rfl⟩

theorem run_subscribed (evs : List Event) (app : app_t) (hsub : app.is_subscribed = 1)
    (hd : app.default_sink.isSome = true) (he : ∀ e ∈ evs, e.alloc_ok = true) :
    ∃ app1 outs, run app evs = some (app1, outs) ∧ app1.is_subscribed = 1 ∧
      app1.default_sink.isSome = true ∧ subscribe_requests outs.flatten = [] := by
  induction evs generalizing app with
  | nil => exact ⟨app, [], rfl, hsub, hd, rfl⟩
  | cons e evs ih =>
    obtain ⟨app1, out, hstep, h1, h2, h3⟩ :=
      step_subscribed app e hsub hd (he e (by simp))
    obtain ⟨app2, outs, hrun, h4, h5, h6⟩ :=
      ih app1 h1 h2 (fun x hx => he x (by simp [hx]))
    refine ⟨app2, out :: outs, by simp only [run, hstep, hrun], h4, h5, ?_⟩
    rw [List.flatten_cons, subscribe_requests_append, h3, h6]
    rfl

theorem step_initial (e : Event) (hsi : e.is_server_info = false) :
    (e.is_snapshot = true ∧ step initial_app e = none) ∨
    (e.is_snapshot = false ∧
      ∃ out, step initial_app e = some (initial_app, out) ∧ subscribe_requests out = []) := by
  cases e with
  | state s => right; cases s <;> exact ⟨rfl, _, rfl, rfl⟩
  | subscription event index =>
    right
    refine ⟨rfl, (subscription_event_callback initial_app event index).2, ?_, ?_⟩
    · simp only [step, subscription_event_callback, initial_app]
      split_ifs <;> rfl
    · simp only [subscription_event_callback, initial_app]
      split_ifs <;> rfl
  | server_info name malloc_ok => simp [Event.is_server_info] at hsi
  | sink_info info eol =>
    by_cases h0 : eol = 0
    · left
      exact ⟨by simp [Event.is_snapshot, h0], by simp [step, sink_info_callback, h0,
        initial_app]⟩
    · right
      exact ⟨by simp [Event.is_snapshot, h0], [], by simp [step, sink_info_callback, h0], rfl⟩
  | success success =>
    right
    by_cases h0 : success = 0
    · exact ⟨rfl, [.pa_mainloop_quit 1], by simp [step, success_callback, h0], rfl⟩
    · exact ⟨rfl, [], by simp [step, success_callback, h0], rfl⟩

/-- C3: for every finite sequence of callbacks that contains a call of
`server_info_callback` and in which allocation succeeds, run from the initial state: the
run is defined exactly when no snapshot reaches `sink_info_callback` before the first
`server_info_callback` call (such a snapshot would be compared with a null name), and in
every defined run exactly one subscribe request is issued in total, with mask
`SINK | SERVER`, by the first `server_info_callback` call, and the flag ends at 1. -/
theorem subscribe_exactly_once (evs : List Event)
    (hsi : ∃ e ∈ evs, e.is_server_info = true)
    (halloc : ∀ e ∈ evs, e.alloc_ok = true) :
    ((run initial_app evs).isSome = true ↔
      ∀ e ∈ evs.take (evs.findIdx Event.is_server_info), e.is_snapshot = false) ∧
    ∀ app outs, run initial_app evs = some (app, outs) →
      subscribe_requests outs.flatten = [0x81] ∧
      subscribe_requests (outs.getD (evs.findIdx Event.is_server_info) []) = [0x81] ∧
      app.is_subscribed = 1 := by
  induction evs with
  | nil => simp at hsi
  | cons e evs ih =>
    by_cases hes : e.is_server_info = true
    · cases e with
      | server_info name malloc_ok =>
        have hok : malloc_ok = true := halloc (.server_info name malloc_ok) (by simp)
        subst hok
        have hstep : step initial_app (.server_info name true) =
            some (⟨some name, 1⟩, [.pa_context_set_subscribe_callback .subscription_event,
              .pa_context_subscribe 0x81 .success,
              .pa_context_get_sink_info_by_name name .sink_info]) := by
          simp [step, server_info_callback, default_sink_unchanged, initial_app,
            PA_SUBSCRIPTION_MASK_SINK, PA_SUBSCRIPTION_MASK_SERVER]
        obtain ⟨app2, outs2, hrun, h4, -, h6⟩ :=
          run_subscribed evs ⟨some name, 1⟩ rfl rfl (fun x hx => halloc x (by simp [hx]))
        have hidx : List.findIdx Event.is_server_info (Event.server_info name true :: evs)
            = 0 := by
          simp [List.findIdx_cons, Event.is_server_info]
        rw [hidx]
        constructor
        · simp [run, hstep, hrun]
        · intro app outs h
          simp only [run, hstep, hrun, Option.some.injEq, Prod.mk.injEq] at h
          obtain ⟨rfl, rfl⟩ := h
          refine ⟨?_, rfl, h4⟩
          rw [List.flatten_cons, subscribe_requests_append, h6]
          rfl
      | _ => simp [Event.is_server_info] at hes
    · have hes0 : e.is_server_info = false := by simpa using hes
      have hsi1 : ∃ x ∈ evs, x.is_server_info = true := by
        obtain ⟨x, hx, hxs⟩ := hsi
        rcases List.mem_cons.mp hx with rfl | hx
        · exact absurd hxs hes
        · exact ⟨x, hx, hxs⟩
      obtain ⟨ih1, ih2⟩ := ih hsi1 (fun x hx => halloc x (by simp [hx]))
      have hidx : List.findIdx Event.is_server_info (e :: evs)
          = List.findIdx Event.is_server_info evs + 1 := by
        simp [List.findIdx_cons, hes0]
      rw [hidx]
      rcases step_initial e hes0 with ⟨hsnap, hstep⟩ | ⟨hsnap, out, hstep, hout⟩
      · constructor
        · simp [run, hstep, hsnap]
        · intro app outs h
          simp [run, hstep] at h
      · constructor
        · rw [List.take_succ_cons]
          simp only [List.mem_cons, forall_eq_or_imp, hsnap, true_and]
          rw [← ih1]
          simp only [run, hstep]
          cases run initial_app evs with
          | none => simp
          | some r => simp
        · intro app outs h
          simp only [run, hstep] at h
          cases hr : run initial_app evs with
          | none => simp [hr] at h
          | some r =>
            obtain ⟨app2, outs2⟩ := r
            simp only [hr, Option.some.injEq, Prod.mk.injEq] at h
            obtain ⟨rfl, rfl⟩ := h
            obtain ⟨h1, h2, h3⟩ := ih2 app2 outs2 hr
            refine ⟨?_, ?_, h3⟩
            · rw [List.flatten_cons, subscribe_requests_append, hout, h1]
              rfl
            · rw [List.getD_cons_succ]
              exact h2

/-- Witness of `subscribe_exactly_once`: ready, then "A" and "B" reported in turn. -/
theorem subscribe_exactly_once_witness :
    subscribe_requests
      ([[.pa_context_get_server_info .server_info],
        [.pa_context_set_subscribe_callback .subscription_event,
          .pa_context_subscribe 0x81 .success,
          .pa_context_get_sink_info_by_name name_A .sink_info],
        [.pa_context_get_sink_info_by_name name_B .sink_info]] : List (List Effect)).flatten
      = [0x81] :=
  ((subscribe_exactly_once
    [.state .READY, .server_info name_A true, .server_info name_B true]
    ⟨.server_info name_A true, by simp, rfl⟩ (by decide)).2 ⟨some name_B, 1⟩ _ (by decide)).1

/-! ## The volume line written by `sink_info_callback` -/

theorem sink_info_callback_match (app : app_t) (d : CStr) (info : pa_sink_info)
    (hd : app.default_sink = some d)
    (hm : strncmp d.bytes info.name.bytes SINK_NAME_MAX = 0) :
    sink_info_callback app info 0 = some (app,
      [.printf_stdout ("volume = " ++ toString (round_half_even (info.volume_avg * 100) 65536)
          ++ " muted = " ++ toString info.mute ++ "\n"),
       .fflush_stdout]) := by
  simp only [sink_info_callback, hd, hm]
  rfl

theorem round_half_even_spec (n : Nat) :
    |(round_half_even (n * 100) 65536 : ℚ) - 100 * n / 65536| ≤ 1 / 2 ∧
    (|(round_half_even (n * 100) 65536 : ℚ) - 100 * n / 65536| = 1 / 2 →
      Even (round_half_even (n * 100) 65536)) ∧
    ((n * 100) % 65536 ≠ 32768 →
      (round_half_even (n * 100) 65536 : ℤ) = round (100 * (n : ℚ) / 65536)) := by
  have hdm := Nat.div_add_mod (n * 100) 65536
  have hlt : (n * 100) % 65536 < 65536 := Nat.mod_lt _ (by norm_num)
  generalize (n * 100) / 65536 = q at hdm
  generalize (n * 100) % 65536 = r at hdm hlt
  have hx : 100 * (n : ℚ) / 65536 = q + r / 65536 := by
    have : ((n * 100 : ℕ) : ℚ) = ((65536 * q + r : ℕ) : ℚ) := by rw [hdm]
    push_cast at this
    field_simp
    linarith
  have hr0 : (0 : ℚ) ≤ r := by positivity
  have hr1 : (r : ℚ) < 65536 := by exact_mod_cast hlt
  have hround : ∀ p : ℕ, (p : ℚ) ≤ q + r / 65536 + 1 / 2 → (q : ℚ) + r / 65536 + 1 / 2 < p + 1 →
      (p : ℤ) = round ((q : ℚ) + r / 65536) := by
    intro p h1 h2
    rw [round_eq, eq_comm, Int.floor_eq_iff]
    exact ⟨by exact_mod_cast h1, by exact_mod_cast h2⟩
  rw [hx]
  have hdef : round_half_even (n * 100) 65536 =
      if 2 * r < 65536 then q else if 65536 < 2 * r then q + 1
      else if q % 2 = 0 then q else q + 1 := by
    have h1 : (n * 100) / 65536 = q := by omega
    have h2 : (n * 100) % 65536 = r := by omega
    simp only [round_half_even, h1, h2]
  rw [hdef]
  split_ifs with h1 h2 h3
  · have h1q : (r : ℚ) < 32768 := by exact_mod_cast (show r < 32768 by omega)
    refine ⟨?_, ?_, fun _ => hround q (by linarith) (by linarith)⟩
    · rw [abs_le]; constructor <;> linarith
    · intro h
      rw [abs_sub_comm, add_sub_cancel_left, abs_of_nonneg (by positivity)] at h
      linarith
  · have h2q : (32768 : ℚ) < r := by exact_mod_cast (show 32768 < r by omega)
    refine ⟨?_, ?_, fun _ => hround (q + 1) (by push_cast; linarith) (by push_cast; linarith)⟩
    · push_cast
      rw [abs_le]; constructor <;> linarith
    · intro h
      push_cast at h
      rw [abs_of_nonneg (by linarith)] at h
      linarith
  · have hr : r = 32768 := by omega
    subst hr
    refine ⟨?_, fun _ => Nat.even_iff.mpr h3, fun h => absurd rfl h⟩
    rw [abs_le]; constructor <;> norm_num
  · have hr : r = 32768 := by omega
    have hodd : (q + 1) % 2 = 0 := by
      clear hdef hround hx hdm
      omega
    subst hr
    refine ⟨?_, fun _ => Nat.even_iff.mpr hodd, fun h => absurd rfl h⟩
    push_cast
    rw [abs_le]; constructor <;> norm_num

/-- C5 (as stated, refuted): for the accepted snapshot of averaged amplitude 8192 the
value is exactly 12.5; `sink_info_callback` prints 12, while rounding the half away from
zero gives 13. -/
theorem amplitude_mapping_half_counterexample :
    sink_info_callback ⟨some name_A, 1⟩ snapshot_A_eighth 0 =
      some (⟨some name_A, 1⟩, [.printf_stdout "volume = 12 muted = 0\n", .fflush_stdout]) ∧
    round ((100 * 8192 : ℚ) / 65536) = 13 := by
  constructor
  · decide
  · rw [round_eq]; norm_num [Int.floor_eq_iff]

/-- C5 (amended): for every accepted snapshot (a default name is stored, `strncmp` finds
the snapshot's name equal to it, end-of-results clear) `sink_info_callback` writes the
line with the integer `p` that is nearest to `100 * avg / 65536`, an exact half going to
the even neighbour; `p` equals `round (100 * avg / 65536)` whenever the value is not an
exact half, and `avg` = 65536, 0, 32768 give 100, 0, 50. -/
theorem amplitude_mapping (app : app_t) (d : CStr) (info : pa_sink_info)
    (hd : app.default_sink = some d)
    (hm : strncmp d.bytes info.name.bytes SINK_NAME_MAX = 0) :
    ∃ p : Nat,
      sink_info_callback app info 0 = some (app,
        [.printf_stdout ("volume = " ++ toString p ++ " muted = " ++ toString info.mute
            ++ "\n"),
         .fflush_stdout]) ∧
      |(p : ℚ) - 100 * info.volume_avg / 65536| ≤ 1 / 2 ∧
      (|(p : ℚ) - 100 * info.volume_avg / 65536| = 1 / 2 → Even p) ∧
      ((info.volume_avg * 100) % 65536 ≠ 32768 →
        (p : ℤ) = round (100 * (info.volume_avg : ℚ) / 65536)) ∧
      (info.volume_avg = 65536 → p = 100) ∧
      (info.volume_avg = 0 → p = 0) ∧
      (info.volume_avg = 32768 → p = 50) := by
  obtain ⟨h1, h2, h3⟩ := round_half_even_spec info.volume_avg
  refine ⟨round_half_even (info.volume_avg * 100) 65536,
    sink_info_callback_match app d info hd hm, h1, h2, h3, ?_, ?_, ?_⟩ <;>
  · intro h
    rw [h]
    decide

/-- Witness of `amplitude_mapping`: default "A", snapshot of "A" at amplitude 32768. -/
theorem amplitude_mapping_witness :
    ∃ p : Nat,
      sink_info_callback ⟨some name_A, 1⟩ snapshot_A_50 0 = some (⟨some name_A, 1⟩,
        [.printf_stdout ("volume = " ++ toString p ++ " muted = " ++
            toString snapshot_A_50.mute ++ "\n"),
         .fflush_stdout]) ∧
      |(p : ℚ) - 100 * snapshot_A_50.volume_avg / 65536| ≤ 1 / 2 ∧
      (|(p : ℚ) - 100 * snapshot_A_50.volume_avg / 65536| = 1 / 2 → Even p) ∧
      ((snapshot_A_50.volume_avg * 100) % 65536 ≠ 32768 →
        (p : ℤ) = round (100 * (snapshot_A_50.volume_avg : ℚ) / 65536)) ∧
      (snapshot_A_50.volume_avg = 65536 → p = 100) ∧
      (snapshot_A_50.volume_avg = 0 → p = 0) ∧
      (snapshot_A_50.volume_avg = 32768 → p = 50) :=
  amplitude_mapping ⟨some name_A, 1⟩ name_A snapshot_A_50 rfl (by decide)

/-- C6: in every state with a stored default name `d`, for every snapshot with
end-of-results clear whose name matches `d` (is equal to it, or is found equal by the
bounded comparison), `sink_info_callback` leaves the state as it is and makes exactly
two calls: it writes the one line `volume = <p> muted = <m>` ended by a newline, where
`p` is the percentage in decimal, that is the natural number nearest to
`100 * avg / 65536` (at most one half away from it, and even when exactly one half away),
and `m` is `0` or `1` as the mute flag is, and then flushes standard output; and every
call with end-of-results set makes no call. -/
theorem output_format (app : app_t) (info : pa_sink_info) :
    (∀ d, app.default_sink = some d →
      (info.name = d ∨ strncmp d.bytes info.name.bytes SINK_NAME_MAX = 0) →
      ∃ (p : Nat) (m : String),
        sink_info_callback app info 0 = some (app,
          [.printf_stdout ("volume = " ++ toString p ++ " muted = " ++ m ++ "\n"),
           .fflush_stdout]) ∧
        p = round_half_even (info.volume_avg * 100) PA_VOLUME_NORM ∧
        |(p : ℚ) - 100 * info.volume_avg / 65536| ≤ 1 / 2 ∧
        (|(p : ℚ) - 100 * info.volume_avg / 65536| = 1 / 2 → Even p) ∧
        ((info.mute = 0 ∧ m = "0") ∨ (info.mute = 1 ∧ m = "1"))) ∧
    (∀ eol, eol ≠ 0 → sink_info_callback app info eol = some (app, [])) := by
  constructor
  · intro d hd hname
    have hm : strncmp d.bytes info.name.bytes SINK_NAME_MAX = 0 := by
      rcases hname with h | h
      · rw [h]; exact strncmp_self _ _
      · exact h
    obtain ⟨hnear, heven, -⟩ := round_half_even_spec info.volume_avg
    refine ⟨round_half_even (info.volume_avg * 100) 65536, toString info.mute,
      sink_info_callback_match app d info hd hm, rfl, hnear, heven, ?_⟩
    rcases info.mute_is_flag with h | h
    · left; exact ⟨h, by rw [h]; rfl⟩
    · right; exact ⟨h, by rw [h]; rfl⟩
  · intro eol heol
    simp [sink_info_callback, heol]

/-- Witness of `output_format`: default "B", the muted snapshot of "B" at amplitude
19661, and an end-of-results call. -/
theorem output_format_witness :
    (∃ (p : Nat) (m : String),
        sink_info_callback ⟨some name_B, 1⟩ snapshot_B_30 0 = some (⟨some name_B, 1⟩,
          [.printf_stdout ("volume = " ++ toString p ++ " muted = " ++ m ++ "\n"),
           .fflush_stdout]) ∧
        p = round_half_even (snapshot_B_30.volume_avg * 100) PA_VOLUME_NORM ∧
        |(p : ℚ) - 100 * snapshot_B_30.volume_avg / 65536| ≤ 1 / 2 ∧
        (|(p : ℚ) - 100 * snapshot_B_30.volume_avg / 65536| = 1 / 2 → Even p) ∧
        ((snapshot_B_30.mute = 0 ∧ m = "0") ∨ (snapshot_B_30.mute = 1 ∧ m = "1"))) ∧
    sink_info_callback ⟨some name_B, 1⟩ snapshot_B_30 1 = some (⟨some name_B, 1⟩, []) :=
  ⟨(output_format ⟨some name_B, 1⟩ snapshot_B_30).1 name_B rfl (Or.inl rfl),
   (output_format ⟨some name_B, 1⟩ snapshot_B_30).2 1 (by decide)⟩

/-! ## Scenarios -/

/-- C7: from the initial state the trace of scenarios A to C (context ready; server-info
"A"; snapshot of "A" at 32768, not muted; sink change event; snapshot of "A" at 52429;
server change event; server-info "B"; snapshot of "B" at 19661, muted; a stray snapshot
of "A" with any amplitude and mute flag) is defined, writes exactly the three lines
`volume = 50 muted = 0`, `volume = 80 muted = 0`, `volume = 30 muted = 1` in this order,
and the stray snapshot, the last event, makes no call at all. -/
theorem scenarios_A_B_C (i j : Nat) (stray : pa_sink_info) (hstray : stray.name = name_A) :
    run initial_app (scenario_trace i j stray) =
      some (⟨some name_B, 1⟩,
        [[.pa_context_get_server_info .server_info],
         [.pa_context_set_subscribe_callback .subscription_event,
          .pa_context_subscribe 0x81 .success,
          .pa_context_get_sink_info_by_name name_A .sink_info],
         [.printf_stdout "volume = 50 muted = 0\n", .fflush_stdout],
         [.pa_context_get_sink_info_by_name name_A .sink_info],
         [.printf_stdout "volume = 80 muted = 0\n", .fflush_stdout],
         [.pa_context_get_server_info .server_info],
         [.pa_context_get_sink_info_by_name name_B .sink_info],
         [.printf_stdout "volume = 30 muted = 1\n", .fflush_stdout],
         []]) ∧
    ∀ app outs, run initial_app (scenario_trace i j stray) = some (app, outs) →
      stdout_lines outs.flatten =
        ["volume = 50 muted = 0\n", "volume = 80 muted = 0\n", "volume = 30 muted = 1\n"] ∧
      outs.getLast? = some [] := by
  have hlast : sink_info_callback ⟨some name_B, 1⟩ stray 0 = some (⟨some name_B, 1⟩, []) :=
    race_guard_first_bytes ⟨some name_B, 1⟩ name_B stray 0 rfl (by rw [hstray]; decide)
  have hrun : run initial_app (scenario_trace i j stray) =
      some (⟨some name_B, 1⟩,
        [[.pa_context_get_server_info .server_info],
         [.pa_context_set_subscribe_callback .subscription_event,
          .pa_context_subscribe 0x81 .success,
          .pa_context_get_sink_info_by_name name_A .sink_info],
         [.printf_stdout "volume = 50 muted = 0\n", .fflush_stdout],
         [.pa_context_get_sink_info_by_name name_A .sink_info],
         [.printf_stdout "volume = 80 muted = 0\n", .fflush_stdout],
         [.pa_context_get_server_info .server_info],
         [.pa_context_get_sink_info_by_name name_B .sink_info],
         [.printf_stdout "volume = 30 muted = 1\n", .fflush_stdout],
         []]) := by
    have h1 : step initial_app (.state .READY) =
        some (initial_app, [.pa_context_get_server_info .server_info]) := rfl
    have h2 : step initial_app (.server_info name_A true) =
        some (⟨some name_A, 1⟩, [.pa_context_set_subscribe_callback .subscription_event,
          .pa_context_subscribe 0x81 .success,
          .pa_context_get_sink_info_by_name name_A .sink_info]) := by decide
    have h3 : step ⟨some name_A, 1⟩ (.sink_info snapshot_A_50 0) =
        some (⟨some name_A, 1⟩, [.printf_stdout "volume = 50 muted = 0\n", .fflush_stdout]) := by
      decide
    have h4 : step ⟨some name_A, 1⟩
        (.subscription (PA_SUBSCRIPTION_EVENT_SINK ||| PA_SUBSCRIPTION_EVENT_CHANGE) i) =
        some (⟨some name_A, 1⟩, [.pa_context_get_sink_info_by_name name_A .sink_info]) := rfl
    have h5 : step ⟨some name_A, 1⟩ (.sink_info snapshot_A_80 0) =
        some (⟨some name_A, 1⟩, [.printf_stdout "volume = 80 muted = 0\n", .fflush_stdout]) := by
      decide
    have h6 : step ⟨some name_A, 1⟩
        (.subscription (PA_SUBSCRIPTION_EVENT_SERVER ||| PA_SUBSCRIPTION_EVENT_CHANGE) j) =
        some (⟨some name_A, 1⟩, [.pa_context_get_server_info .server_info]) := rfl
    have h7 : step ⟨some name_A, 1⟩ (.server_info name_B true) =
        some (⟨some name_B, 1⟩, [.pa_context_get_sink_info_by_name name_B .sink_info]) := by
      decide
    have h8 : step ⟨some name_B, 1⟩ (.sink_info snapshot_B_30 0) =
        some (⟨some name_B, 1⟩, [.printf_stdout "volume = 30 muted = 1\n", .fflush_stdout]) := by
      decide
    have h9 : step ⟨some name_B, 1⟩ (.sink_info stray 0) = some (⟨some name_B, 1⟩, []) := hlast
    simp only [scenario_trace, run, h1, h2, h3, h4, h5, h6, h7, h8, h9]
  refine ⟨hrun, ?_⟩
  intro app outs h
  rw [hrun] at h
  simp only [Option.some.injEq, Prod.mk.injEq] at h
  obtain ⟨-, rfl⟩ := h
  exact ⟨rfl, rfl⟩

/-- Witness of `scenarios_A_B_C`: the stray snapshot is "A" at amplitude 8192. -/
theorem scenarios_A_B_C_witness :
    stdout_lines
      ([[.pa_context_get_server_info .server_info],
         [.pa_context_set_subscribe_callback .subscription_event,
          .pa_context_subscribe 0x81 .success,
          .pa_context_get_sink_info_by_name name_A .sink_info],
         [.printf_stdout "volume = 50 muted = 0\n", .fflush_stdout],
         [.pa_context_get_sink_info_by_name name_A .sink_info],
         [.printf_stdout "volume = 80 muted = 0\n", .fflush_stdout],
         [.pa_context_get_server_info .server_info],
         [.pa_context_get_sink_info_by_name name_B .sink_info],
         [.printf_stdout "volume = 30 muted = 1\n", .fflush_stdout],
         []] : List (List Effect)).flatten =
      ["volume = 50 muted = 0\n", "volume = 80 muted = 0\n", "volume = 30 muted = 1\n"] :=
  ((scenarios_A_B_C 3 0 snapshot_A_eighth rfl).2 ⟨some name_B, 1⟩ _
    (scenarios_A_B_C 3 0 snapshot_A_eighth rfl).1).1

/-- C8: from the initial state, for every sequence of context states that are neither
ready nor failed followed by the failed state, the run of `state_callback` over it is
defined, makes no call before the last event and there only the diagnostic on standard
error and the termination request with status 1; so no discovery request is issued,
nothing is written to standard output, and the state is still the initial one:
`default_sink` unset and `is_subscribed` = 0. -/
theorem connection_failure (pre : List pa_context_state_t)
    (hpre : ∀ s ∈ pre, s ≠ .READY ∧ s ≠ .FAILED) :
    run initial_app ((pre ++ [pa_context_state_t.FAILED]).map Event.state) =
      some (initial_app, pre.map (fun _ => []) ++
        [[Effect.fprintf_stderr "PulseAudio connection failed\n", Effect.pa_mainloop_quit 1]]) ∧
    ∀ app outs, run initial_app ((pre ++ [pa_context_state_t.FAILED]).map Event.state) = some (app, outs) →
      app.default_sink = none ∧ app.is_subscribed = 0 ∧
      quit_requests outs.flatten = [1] ∧ stdout_lines outs.flatten = [] ∧
      ∀ c ∈ outs.flatten, ∀ cb, c ≠ Effect.pa_context_get_server_info cb := by
  have hrun : run initial_app ((pre ++ [pa_context_state_t.FAILED]).map Event.state) =
      some (initial_app, pre.map (fun _ => []) ++
        [[Effect.fprintf_stderr "PulseAudio connection failed\n", Effect.pa_mainloop_quit 1]]) := by
    induction pre with
    | nil => rfl
    | cons s pre ih =>
      have hs := hpre s (by simp)
      have hstep : step initial_app (.state s) = some (initial_app, []) := by
        cases s <;> first | rfl | exact absurd rfl hs.1 | exact absurd rfl hs.2
      have ih1 := ih (fun x hx => hpre x (by simp [hx]))
      rw [List.cons_append, List.map_cons]
      simp only [run, hstep, ih1]
      rfl
  refine ⟨hrun, ?_⟩
  intro app outs h
  rw [hrun] at h
  simp only [Option.some.injEq, Prod.mk.injEq] at h
  obtain ⟨rfl, rfl⟩ := h
  have hflat : (pre.map (fun _ => ([] : List Effect)) ++
      [[Effect.fprintf_stderr "PulseAudio connection failed\n", Effect.pa_mainloop_quit 1]]).flatten =
      [Effect.fprintf_stderr "PulseAudio connection failed\n", Effect.pa_mainloop_quit 1] := by
    clear hrun hpre
    induction pre with
    | nil => rfl
    | cons s pre ih => simp
  rw [hflat]
  refine ⟨rfl, rfl, rfl, rfl, ?_⟩
  intro c hc cb
  simp only [List.mem_cons, List.mem_singleton, List.not_mem_nil, or_false] at hc
  rcases hc with rfl | rfl <;> simp

/-- Witness of `connection_failure`: connecting, authorizing, then failed. -/
theorem connection_failure_witness :
    run initial_app
      (([pa_context_state_t.CONNECTING, .AUTHORIZING] ++ [pa_context_state_t.FAILED]).map Event.state) =
      some (initial_app, [pa_context_state_t.CONNECTING, .AUTHORIZING].map (fun _ => []) ++
        [[Effect.fprintf_stderr "PulseAudio connection failed\n", Effect.pa_mainloop_quit 1]]) :=
  (connection_failure [.CONNECTING, .AUTHORIZING] (by decide)).1

/-! ## Fatal failures -/

/-- C9: in every state `success_callback` requests termination of the main loop, with
status 1 and as its only call, if and only if its `success` argument is 0; with a
non-zero `success` it makes no call at all; the state is returned unchanged either way. -/
theorem subscribe_failure_fatal (app : app_t) (success : Int) :
    ((success_callback app success).2 = [.pa_mainloop_quit 1] ↔ success = 0) ∧
    (quit_requests (success_callback app success).2 = [1] ↔ success = 0) ∧
    (success ≠ 0 → (success_callback app success).2 = []) ∧
    (success_callback app success).1 = app := by
  by_cases h : success = 0
  · simp [success_callback, h, quit_requests]
  · simp [success_callback, h, quit_requests]

/-- Witness of `subscribe_failure_fatal`: a reported success leaves nothing to do. -/
theorem subscribe_failure_fatal_witness :
    (success_callback initial_app 1).2 = [] :=
  (subscribe_failure_fatal initial_app 1).2.2.1 (by decide)

/-- C10: in every state, when a call of `server_info_callback` reports a name that is not
found unchanged and `malloc` fails, the call writes the diagnostic on standard error and
requests termination with status 1, and makes no other call: no subscribe request and no
device-state query; `is_subscribed` keeps its value. -/
theorem allocation_failure_fatal (app : app_t) (name : CStr)
    (h : default_sink_unchanged app name = false) :
    (server_info_callback app name false).2 =
      [.fprintf_stderr "Could not allocate memory for sink name\n", .pa_mainloop_quit 1] ∧
    quit_requests (server_info_callback app name false).2 = [1] ∧
    subscribe_requests (server_info_callback app name false).2 = [] ∧
    sink_queries (server_info_callback app name false).2 = [] ∧
    (server_info_callback app name false).1.is_subscribed = app.is_subscribed := by
  simp [server_info_callback, h, quit_requests, subscribe_requests, sink_queries]

/-- Witness of `allocation_failure_fatal`: the first discovery, from the initial state. -/
theorem allocation_failure_fatal_witness :
    (server_info_callback initial_app name_A false).2 =
      [.fprintf_stderr "Could not allocate memory for sink name\n", .pa_mainloop_quit 1] :=
  (allocation_failure_fatal initial_app name_A (by decide)).1

/-! ## The bounded comparison in `server_info_callback` -/

theorem default_sink_unchanged_iff (app : app_t) (d c : CStr)
    (hd : app.default_sink = some d) :
    default_sink_unchanged app c = true ↔
      c.bytes.take SINK_NAME_MAX = d.bytes.take SINK_NAME_MAX := by
  simp only [default_sink_unchanged, hd, beq_iff_eq, cstr_strncmp_eq_zero_iff]
  exact eq_comm

theorem server_info_callback_noop_iff (app : app_t) (c : CStr) (malloc_ok : Bool) :
    server_info_callback app c malloc_ok = (app, []) ↔
      default_sink_unchanged app c = true := by
  constructor
  · intro h
    by_contra hu
    simp only [server_info_callback, hu] at h
    cases malloc_ok <;> simp at h
    split_ifs at h <;> simp at h
  · intro hu
    simp [server_info_callback, hu]

theorem take_eq_of_short (a b : List Nat) (n : Nat) (hlen : a.length < n)
    (h : a.take n = b.take n) : a = b := by
  have ha : a.take n = a := List.take_of_length_le (by omega)
  have hb : (b.take n).length = a.length := by rw [← h, ha]
  rw [List.length_take] at hb
  have hb2 : b.take n = b := List.take_of_length_le (by omega)
  rw [ha, hb2] at h
  exact h

theorem cstr_eq_of_bytes (a b : CStr) (h : a.bytes = b.bytes) : a = b := by
  cases a
  cases b
  simp only at h
  subst h
  rfl

/-- C11 (as stated, refuted): with the 256-byte name stored as default, the report of a
different, 257-byte name that agrees with it on the first 256 bytes is ignored:
`server_info_callback` returns the state unchanged and makes no call. -/
theorem default_comparison_long_names_counterexample :
    name_257 ≠ name_256 ∧
    server_info_callback ⟨some name_256, 1⟩ name_257 true = (⟨some name_256, 1⟩, []) := by
  constructor
  · intro h
    have hlen := congrArg (fun s => s.bytes.length) h
    simp only [name_257, name_256, CStr.rep, List.length_replicate] at hlen
    omega
  · rw [server_info_callback_noop_iff, default_sink_unchanged_iff _ name_256 _ rfl]
    simp only [name_257, name_256, CStr.rep, SINK_NAME_MAX, List.take_replicate]
    rfl

/-- C11 (amended): for every stored default name `d` and every reported name `c`,
`server_info_callback` is a no-op (state unchanged, no call) if and only if `c` and `d`
agree on their first `SINK_NAME_MAX` = 256 bytes; when one of the two names is shorter
than 256 bytes that is if and only if `c` equals `d`, and equal names are always a no-op;
whenever `c` differs from `d` within the first 256 bytes and allocation succeeds, the
stored default name after the call is `c` in full. -/
theorem default_comparison_bounded (app : app_t) (d c : CStr) (malloc_ok : Bool)
    (hd : app.default_sink = some d) :
    (server_info_callback app c malloc_ok = (app, []) ↔
      c.bytes.take SINK_NAME_MAX = d.bytes.take SINK_NAME_MAX) ∧
    (c.bytes.length < SINK_NAME_MAX ∨ d.bytes.length < SINK_NAME_MAX →
      (server_info_callback app c malloc_ok = (app, []) ↔ c = d)) ∧
    (c = d → server_info_callback app c malloc_ok = (app, [])) ∧
    (c.bytes.take SINK_NAME_MAX ≠ d.bytes.take SINK_NAME_MAX →
      (server_info_callback app c true).1.default_sink = some c) := by
  have hiff : server_info_callback app c malloc_ok = (app, []) ↔
      c.bytes.take SINK_NAME_MAX = d.bytes.take SINK_NAME_MAX := by
    rw [server_info_callback_noop_iff, default_sink_unchanged_iff app d c hd]
  refine ⟨hiff, ?_, ?_, ?_⟩
  · intro hshort
    rw [hiff]
    constructor
    · intro h
      rcases hshort with hs | hs
      · exact cstr_eq_of_bytes _ _ (take_eq_of_short _ _ _ hs h)
      · exact (cstr_eq_of_bytes _ _ (take_eq_of_short _ _ _ hs h.symm)).symm
    · intro h
      rw [h]
  · intro h
    rw [hiff, h]
  · intro hne
    have hu : default_sink_unchanged app c = false := by
      rw [← Bool.not_eq_true, default_sink_unchanged_iff app d c hd]
      exact hne
    rcases server_info_callback_accept app c hu with h1 | ⟨-, h1⟩ <;> rw [h1]

/-- Witness of `default_comparison_bounded`: default "A", report of "B". -/
theorem default_comparison_bounded_witness :
    (server_info_callback ⟨some name_A, 1⟩ name_B true).1.default_sink = some name_B :=
  (default_comparison_bounded ⟨some name_A, 1⟩ name_A name_B true rfl).2.2.2 (by decide)

/-! ## Event correlation in `subscription_event_callback` -/

/-- C12: in every state and for every subscription event whose type bits are `CHANGE`,
whatever its index, `subscription_event_callback` returns the state unchanged and makes
(i) the single call `pa_context_get_server_info` when the facility is `SERVER`, (ii) the
single call `pa_context_get_sink_info_by_name` for the stored default name when the
facility is `SINK` and a default name is stored, (iii) no call when the facility is `SINK`
and no default name is stored. -/
theorem event_correlation (app : app_t) (event index : Nat)
    (hchange : event &&& PA_SUBSCRIPTION_EVENT_TYPE_MASK = PA_SUBSCRIPTION_EVENT_CHANGE) :
    (event &&& PA_SUBSCRIPTION_EVENT_FACILITY_MASK = PA_SUBSCRIPTION_EVENT_SERVER →
      subscription_event_callback app event index =
        (app, [.pa_context_get_server_info .server_info])) ∧
    (event &&& PA_SUBSCRIPTION_EVENT_FACILITY_MASK = PA_SUBSCRIPTION_EVENT_SINK →
      ∀ d, app.default_sink = some d →
        subscription_event_callback app event index =
          (app, [.pa_context_get_sink_info_by_name d .sink_info])) ∧
    (event &&& PA_SUBSCRIPTION_EVENT_FACILITY_MASK = PA_SUBSCRIPTION_EVENT_SINK →
      app.default_sink = none → subscription_event_callback app event index = (app, [])) := by
  refine ⟨?_, ?_, ?_⟩
  · intro hf
    simp [subscription_event_callback, hchange, hf]
  · intro hf d hd
    have hns : ¬ (PA_SUBSCRIPTION_EVENT_SINK = PA_SUBSCRIPTION_EVENT_SERVER) := by decide
    simp [subscription_event_callback, hchange, hf, hd, hns]
  · intro hf hd
    have hns : ¬ (PA_SUBSCRIPTION_EVENT_SINK = PA_SUBSCRIPTION_EVENT_SERVER) := by decide
    simp [subscription_event_callback, hchange, hf, hd, hns]

/-- Witness of `event_correlation`: the sink change event `0x10` with index 7 while "A"
is the default. -/
theorem event_correlation_witness :
    subscription_event_callback ⟨some name_A, 1⟩ 0x10 7 =
      (⟨some name_A, 1⟩, [.pa_context_get_sink_info_by_name name_A .sink_info]) :=
  (event_correlation ⟨some name_A, 1⟩ 0x10 7 (by decide)).2.1 (by decide) name_A rfl

/-- C13: in every state `subscription_event_callback` returns the state unchanged and
makes no call, so writes nothing, for every event whose type bits are not `CHANGE` and
for every `CHANGE` event whose facility is neither `SINK` nor `SERVER`. -/
theorem event_filtering (app : app_t) (event index : Nat) :
    (event &&& PA_SUBSCRIPTION_EVENT_TYPE_MASK ≠ PA_SUBSCRIPTION_EVENT_CHANGE →
      subscription_event_callback app event index = (app, [])) ∧
    (event &&& PA_SUBSCRIPTION_EVENT_TYPE_MASK = PA_SUBSCRIPTION_EVENT_CHANGE →
      event &&& PA_SUBSCRIPTION_EVENT_FACILITY_MASK ≠ PA_SUBSCRIPTION_EVENT_SINK →
      event &&& PA_SUBSCRIPTION_EVENT_FACILITY_MASK ≠ PA_SUBSCRIPTION_EVENT_SERVER →
      subscription_event_callback app event index = (app, [])) := by
  constructor
  · intro ht
    simp [subscription_event_callback, ht]
  · intro ht hs hv
    simp [subscription_event_callback, ht, hs, hv]

/-- Witness of `event_filtering`: the sink removal event `0x20` and the source change
event `0x11`. -/
theorem event_filtering_witness :
    subscription_event_callback ⟨some name_A, 1⟩ 0x20 0 = (⟨some name_A, 1⟩, []) ∧
    subscription_event_callback ⟨some name_A, 1⟩ 0x11 0 = (⟨some name_A, 1⟩, []) :=
  ⟨(event_filtering ⟨some name_A, 1⟩ 0x20 0).1 (by decide),
   (event_filtering ⟨some name_A, 1⟩ 0x11 0).2 (by decide) (by decide) (by decide)⟩

/-! ## Connection lifecycle in `state_callback` -/

/-- C14: in every state and for every context state `s`, `state_callback` makes the single
call `pa_context_get_server_info` (and no termination request) when `s` is ready, writes
the diagnostic on standard error and requests termination with status 1 (and no discovery
request) when `s` is failed, makes no call for every other `s`, and always returns the
state, `default_sink` and `is_subscribed`, as it was. -/
theorem connection_lifecycle (app : app_t) (s : pa_context_state_t) :
    (s = .READY →
      state_callback app s = (app, [.pa_context_get_server_info .server_info])) ∧
    (s = .FAILED →
      state_callback app s =
        (app, [.fprintf_stderr "PulseAudio connection failed\n", .pa_mainloop_quit 1])) ∧
    (s ≠ .READY → s ≠ .FAILED → state_callback app s = (app, [])) ∧
    (state_callback app s).1 = app := by
  refine ⟨?_, ?_, ?_, ?_⟩
  · intro h; subst h; rfl
  · intro h; subst h; rfl
  · intro h1 h2
    cases s <;> first | rfl | exact absurd rfl h1 | exact absurd rfl h2
  · cases s <;> rfl

/-- Witness of `connection_lifecycle`: ready, failed and terminated. -/
theorem connection_lifecycle_witness :
    state_callback initial_app .READY =
      (initial_app, [.pa_context_get_server_info .server_info]) ∧
    state_callback initial_app .FAILED =
      (initial_app,
        [.fprintf_stderr "PulseAudio connection failed\n", .pa_mainloop_quit 1]) ∧
    state_callback initial_app .TERMINATED = (initial_app, []) :=
  ⟨(connection_lifecycle initial_app .READY).1 rfl,
   (connection_lifecycle initial_app .FAILED).2.1 rfl,
   (connection_lifecycle initial_app .TERMINATED).2.2.1 (by decide) (by decide)⟩

/-! ## First discovery -/

/-- C15: for every call of `server_info_callback` on a state with `is_subscribed` = 0 that
is accepted (the name is not found unchanged, allocation succeeds), the calls made are, in
this order, the registration of `subscription_event_callback` as the subscription
handler, one subscribe request with mask `PA_SUBSCRIPTION_MASK_SINK |
PA_SUBSCRIPTION_MASK_SERVER` = `0x0001 | 0x0080` and `success_callback` as completion
handler, and one device-state query for the new name; the state returned holds the new
name and `is_subscribed` = 1, set inside the call, which does not wait for the
completion of the subscribe request. -/
theorem first_discovery (app : app_t) (name : CStr) (hsub : app.is_subscribed = 0)
    (h : default_sink_unchanged app name = false) :
    server_info_callback app name true =
      (⟨some name, 1⟩,
        [.pa_context_set_subscribe_callback .subscription_event,
         .pa_context_subscribe (PA_SUBSCRIPTION_MASK_SINK ||| PA_SUBSCRIPTION_MASK_SERVER)
           .success,
         .pa_context_get_sink_info_by_name name .sink_info]) ∧
    PA_SUBSCRIPTION_MASK_SINK ||| PA_SUBSCRIPTION_MASK_SERVER = 0x0001 ||| 0x0080 ∧
    (server_info_callback app name true).1.is_subscribed = 1 := by
  have hcall : server_info_callback app name true =
      (⟨some name, 1⟩,
        [.pa_context_set_subscribe_callback .subscription_event,
         .pa_context_subscribe (PA_SUBSCRIPTION_MASK_SINK ||| PA_SUBSCRIPTION_MASK_SERVER)
           .success,
         .pa_context_get_sink_info_by_name name .sink_info]) := by
    simp [server_info_callback, h, hsub]
  refine ⟨hcall, rfl, ?_⟩
  rw [hcall]

/-- Witness of `first_discovery`: the first report, of "A", in the initial state. -/
theorem first_discovery_witness :
    server_info_callback initial_app name_A true =
      (⟨some name_A, 1⟩,
        [.pa_context_set_subscribe_callback .subscription_event,
         .pa_context_subscribe (PA_SUBSCRIPTION_MASK_SINK ||| PA_SUBSCRIPTION_MASK_SERVER)
           .success,
         .pa_context_get_sink_info_by_name name_A .sink_info]) :=
  (first_discovery initial_app name_A rfl (by decide)).1

/-! ## Invariants of the runs -/

theorem sink_queries_append (a b : List Effect) :
    sink_queries (a ++ b) = sink_queries a ++ sink_queries b := by
  induction a with
  | nil => rfl
  | cons c a ih => cases c <;> simp [sink_queries, ih]

theorem sink_info_callback_state (app : app_t) (info : pa_sink_info) (eol : Int)
    (app1 : app_t) (out : List Effect)
    (h : sink_info_callback app info eol = some (app1, out)) : app1 = app := by
  unfold sink_info_callback at h
  split_ifs at h with h0
  · simp only [Option.some.injEq, Prod.mk.injEq] at h
    exact h.1.symm
  · cases hd : app.default_sink with
    | none => simp [hd] at h
    | some d =>
      simp only [hd] at h
      split_ifs at h <;>
      · simp only [Option.some.injEq, Prod.mk.injEq] at h
        exact h.1.symm

theorem sink_info_callback_defined (app : app_t) (info : pa_sink_info) (eol : Int)
    (h : eol ≠ 0 ∨ app.default_sink.isSome = true) :
    (sink_info_callback app info eol).isSome = true := by
  unfold sink_info_callback
  split_ifs with h0
  · rfl
  · have hd : app.default_sink.isSome = true := by
      rcases h with h | h
      · exact absurd h h0
      · exact h
    obtain ⟨d, hd⟩ := Option.isSome_iff_exists.mp hd
    simp only [hd]
    split_ifs <;> rfl

theorem subscription_event_callback_state (app : app_t) (event index : Nat) :
    (subscription_event_callback app event index).1 = app := by
  unfold subscription_event_callback
  split_ifs
  · rfl
  · cases app.default_sink <;> rfl
  · rfl
  · rfl

theorem server_info_callback_keeps_flag (app : app_t) (name : CStr) (malloc_ok : Bool)
    (h : app.is_subscribed = 1) :
    (server_info_callback app name malloc_ok).1.is_subscribed = 1 := by
  have h0 : ¬ (app.is_subscribed = 0) := by omega
  unfold server_info_callback
  split_ifs <;> simp_all

theorem step_keeps_subscribed (app : app_t) (e : Event) (app1 : app_t) (out : List Effect)
    (hsub : app.is_subscribed = 1) (hstep : step app e = some (app1, out)) :
    app1.is_subscribed = 1 := by
  cases e with
  | state s =>
    simp only [step, Option.some.injEq] at hstep
    obtain rfl : (state_callback app s).1 = app1 := by rw [hstep]
    cases s <;> exact hsub
  | subscription event index =>
    simp only [step, Option.some.injEq] at hstep
    obtain rfl : (subscription_event_callback app event index).1 = app1 := by rw [hstep]
    rw [subscription_event_callback_state]; exact hsub
  | server_info name malloc_ok =>
    simp only [step, Option.some.injEq] at hstep
    have := server_info_callback_keeps_flag app name malloc_ok hsub
    rw [hstep] at this
    exact this
  | sink_info info eol =>
    rw [sink_info_callback_state app info eol app1 out hstep]
    exact hsub
  | success success =>
    simp only [step, Option.some.injEq] at hstep
    obtain rfl : (success_callback app success).1 = app1 := by rw [hstep]
    unfold success_callback
    split_ifs <;> exact hsub

theorem run_keeps_subscribed (evs : List Event) (app app1 : app_t)
    (outs : List (List Effect)) (hsub : app.is_subscribed = 1)
    (hrun : run app evs = some (app1, outs)) : app1.is_subscribed = 1 := by
  induction evs generalizing app outs with
  | nil =>
    simp only [run, Option.some.injEq, Prod.mk.injEq] at hrun
    rw [← hrun.1]; exact hsub
  | cons e evs ih =>
    simp only [run] at hrun
    cases hs : step app e with
    | none => simp [hs] at hrun
    | some r =>
      obtain ⟨a1, o1⟩ := r
      simp only [hs] at hrun
      cases hr : run a1 evs with
      | none => simp [hr] at hrun
      | some r2 =>
        obtain ⟨a2, o2⟩ := r2
        simp only [hr, Option.some.injEq, Prod.mk.injEq] at hrun
        obtain ⟨rfl, -⟩ := hrun
        exact ih a1 o2 (step_keeps_subscribed app e a1 o1 hsub hs) hr

theorem step_initial_queries (e : Event) (hsi : e.is_server_info = false) (app1 : app_t)
    (out : List Effect) (hstep : step initial_app e = some (app1, out)) :
    app1 = initial_app ∧ sink_queries out = [] := by
  cases e with
  | state s =>
    simp only [step, Option.some.injEq] at hstep
    obtain rfl : (state_callback initial_app s).1 = app1 := by rw [hstep]
    obtain rfl : (state_callback initial_app s).2 = out := by rw [hstep]
    cases s <;> exact ⟨rfl, rfl⟩
  | subscription event index =>
    simp only [step, Option.some.injEq] at hstep
    obtain rfl : (subscription_event_callback initial_app event index).1 = app1 := by
      rw [hstep]
    obtain rfl : (subscription_event_callback initial_app event index).2 = out := by
      rw [hstep]
    simp only [subscription_event_callback, initial_app]
    split_ifs <;> exact ⟨rfl, rfl⟩
  | server_info name malloc_ok => simp [Event.is_server_info] at hsi
  | sink_info info eol =>
    simp only [step, sink_info_callback, initial_app] at hstep
    split_ifs at hstep
    simp only [Option.some.injEq, Prod.mk.injEq] at hstep
    exact ⟨hstep.1.symm, by rw [← hstep.2]; rfl⟩
  | success success =>
    simp only [step, Option.some.injEq] at hstep
    obtain rfl : (success_callback initial_app success).1 = app1 := by rw [hstep]
    obtain rfl : (success_callback initial_app success).2 = out := by rw [hstep]
    unfold success_callback
    split_ifs <;> exact ⟨rfl, rfl⟩

theorem run_reachable (evs : List Event) (halloc : ∀ e ∈ evs, e.alloc_ok = true)
    (app : app_t) (outs : List (List Effect))
    (hrun : run initial_app evs = some (app, outs)) :
    (app = initial_app ∧ sink_queries outs.flatten = []) ∨
    (app.is_subscribed = 1 ∧ app.default_sink.isSome = true) := by
  induction evs generalizing outs with
  | nil =>
    simp only [run, Option.some.injEq, Prod.mk.injEq] at hrun
    left
    exact ⟨hrun.1.symm, by rw [← hrun.2]; rfl⟩
  | cons e evs ih =>
    by_cases hes : e.is_server_info = true
    · right
      cases e with
      | server_info name malloc_ok =>
        have hok : malloc_ok = true := halloc (.server_info name malloc_ok) (by simp)
        subst hok
        have hstep : step initial_app (.server_info name true) =
            some (⟨some name, 1⟩, [.pa_context_set_subscribe_callback .subscription_event,
              .pa_context_subscribe 0x81 .success,
              .pa_context_get_sink_info_by_name name .sink_info]) := by
          simp [step, server_info_callback, default_sink_unchanged, initial_app,
            PA_SUBSCRIPTION_MASK_SINK, PA_SUBSCRIPTION_MASK_SERVER]
        obtain ⟨app2, outs2, hrun2, h4, h5, -⟩ :=
          run_subscribed evs ⟨some name, 1⟩ rfl rfl (fun x hx => halloc x (by simp [hx]))
        simp only [run, hstep, hrun2, Option.some.injEq, Prod.mk.injEq] at hrun
        rw [← hrun.1]
        exact ⟨h4, h5⟩
      | _ => simp [Event.is_server_info] at hes
    · have hes0 : e.is_server_info = false := by simpa using hes
      simp only [run] at hrun
      cases hs : step initial_app e with
      | none => simp [hs] at hrun
      | some r =>
        obtain ⟨a1, o1⟩ := r
        obtain ⟨ha1, ho1⟩ := step_initial_queries e hes0 a1 o1 hs
        subst ha1
        simp only [hs] at hrun
        cases hr : run initial_app evs with
        | none => simp [hr] at hrun
        | some r2 =>
          obtain ⟨a2, o2⟩ := r2
          simp only [hr, Option.some.injEq, Prod.mk.injEq] at hrun
          obtain ⟨rfl, rfl⟩ := hrun
          rcases ih (fun x hx => halloc x (by simp [hx])) o2 hr with ⟨h1, h2⟩ | h
          · left
            refine ⟨h1, ?_⟩
            rw [List.flatten_cons, sink_queries_append, ho1, h2]
            rfl
          · right
            exact h

theorem run_snoc_defined (evs : List Event) (e : Event) (app app1 : app_t)
    (outs : List (List Effect)) (hrun : run app evs = some (app1, outs))
    (hstep : (step app1 e).isSome = true) : (run app (evs ++ [e])).isSome = true := by
  induction evs generalizing app outs with
  | nil =>
    simp only [run, Option.some.injEq, Prod.mk.injEq] at hrun
    obtain ⟨rfl, -⟩ := hrun
    obtain ⟨r, hr⟩ := Option.isSome_iff_exists.mp hstep
    simp [run, hr]
  | cons x evs ih =>
    simp only [run] at hrun
    cases hs : step app x with
    | none => simp [hs] at hrun
    | some r =>
      obtain ⟨a1, o1⟩ := r
      simp only [hs] at hrun
      cases hr : run a1 evs with
      | none => simp [hr] at hrun
      | some r2 =>
        obtain ⟨a2, o2⟩ := r2
        simp only [hr, Option.some.injEq, Prod.mk.injEq] at hrun
        obtain ⟨rfl, -⟩ := hrun
        have h2 := ih a1 o2 hr
        obtain ⟨r3, hr3⟩ := Option.isSome_iff_exists.mp h2
        obtain ⟨a3, o3⟩ := r3
        simp [run, hs, hr3]

theorem step_query_name (app : app_t) (e : Event) (app1 : app_t) (out : List Effect)
    (hstep : step app e = some (app1, out)) :
    ∀ name ∈ sink_queries out, app1.default_sink = some name := by
  cases e with
  | state s =>
    simp only [step, Option.some.injEq] at hstep
    obtain rfl : (state_callback app s).2 = out := by rw [hstep]
    cases s <;> simp [state_callback, sink_queries]
  | subscription event index =>
    simp only [step, Option.some.injEq] at hstep
    obtain rfl : (subscription_event_callback app event index).1 = app1 := by rw [hstep]
    obtain rfl : (subscription_event_callback app event index).2 = out := by rw [hstep]
    rw [subscription_event_callback_state]
    unfold subscription_event_callback
    split_ifs
    · simp [sink_queries]
    · cases hd : app.default_sink <;> simp [sink_queries]
    · simp [sink_queries]
    · simp [sink_queries]
  | server_info name malloc_ok =>
    simp only [step, Option.some.injEq] at hstep
    obtain rfl : (server_info_callback app name malloc_ok).1 = app1 := by rw [hstep]
    obtain rfl : (server_info_callback app name malloc_ok).2 = out := by rw [hstep]
    clear hstep
    unfold server_info_callback
    split_ifs
    · simp [sink_queries]
    · simp [sink_queries]
    · by_cases hs : app.is_subscribed = 0 <;> simp [hs, sink_queries]
  | sink_info info eol =>
    simp only [step, sink_info_callback] at hstep
    split_ifs at hstep
    · simp only [Option.some.injEq, Prod.mk.injEq] at hstep
      rw [← hstep.2]; simp [sink_queries]
    · cases hd : app.default_sink with
      | none => simp [hd] at hstep
      | some d =>
        simp only [hd] at hstep
        split_ifs at hstep <;>
        · simp only [Option.some.injEq, Prod.mk.injEq] at hstep
          rw [← hstep.2]; simp [sink_queries]
  | success success =>
    simp only [step, Option.some.injEq] at hstep
    obtain rfl : (success_callback app success).2 = out := by rw [hstep]
    unfold success_callback
    split_ifs <;> simp [sink_queries]

theorem run_defined_of_responses (evs : List Event)
    (halloc : ∀ e ∈ evs, e.alloc_ok = true)
    (hresp : ∀ pre info eol post, evs = pre ++ Event.sink_info info eol :: post → eol = 0 →
      ∀ app outs, run initial_app pre = some (app, outs) → sink_queries outs.flatten ≠ []) :
    (run initial_app evs).isSome = true := by
  induction evs using List.reverseRecOn with
  | nil => rfl
  | append_singleton l a ih =>
    have hallocl : ∀ e ∈ l, e.alloc_ok = true := fun e he => halloc e (by simp [he])
    have ihl := ih hallocl (fun pre info eol post hl heol =>
      hresp pre info eol (post ++ [a]) (by rw [hl]; simp) heol)
    obtain ⟨r, hr⟩ := Option.isSome_iff_exists.mp ihl
    obtain ⟨app1, outs1⟩ := r
    apply run_snoc_defined l a initial_app app1 outs1 hr
    cases a with
    | sink_info info eol =>
      by_cases heol : eol = 0
      · have hq := hresp l info eol [] rfl heol app1 outs1 hr
        rcases run_reachable l hallocl app1 outs1 hr with ⟨-, h2⟩ | ⟨-, h2⟩
        · exact absurd h2 hq
        · exact sink_info_callback_defined app1 info eol (Or.inr h2)
      · exact sink_info_callback_defined app1 info eol (Or.inl heol)
    | _ => rfl

/-- C16: in every state reached from the initial state by a sequence of callbacks in
which allocation succeeds, `is_subscribed` is 0 or 1 and `is_subscribed` = 1 implies that
a default sink name is stored; and from a state with `is_subscribed` = 1 no callback,
whatever its arguments, and no further sequence of callbacks returns a state with another
value, so the flag goes from 0 to 1 at most once along a run. -/
theorem subscription_flag_invariant (evs : List Event) (app : app_t)
    (outs : List (List Effect)) (halloc : ∀ e ∈ evs, e.alloc_ok = true)
    (hrun : run initial_app evs = some (app, outs)) :
    (app.is_subscribed = 0 ∨ app.is_subscribed = 1) ∧
    (app.is_subscribed = 1 → app.default_sink.isSome = true) ∧
    (∀ e app1 out, app.is_subscribed = 1 → step app e = some (app1, out) →
      app1.is_subscribed = 1) ∧
    (∀ more app2 outs2, app.is_subscribed = 1 → run app more = some (app2, outs2) →
      app2.is_subscribed = 1) := by
  refine ⟨?_, ?_, ?_, ?_⟩
  · rcases run_reachable evs halloc app outs hrun with ⟨h, -⟩ | ⟨h, -⟩
    · left; rw [h]; rfl
    · right; exact h
  · intro hsub
    rcases run_reachable evs halloc app outs hrun with ⟨h, -⟩ | ⟨-, h⟩
    · rw [h] at hsub
      exact absurd hsub (by decide)
    · exact h
  · intro e app1 out hsub hstep
    exact step_keeps_subscribed app e app1 out hsub hstep
  · intro more app2 outs2 hsub hmore
    exact run_keeps_subscribed more app app2 outs2 hsub hmore

/-- Witness of `subscription_flag_invariant`: ready, then the first report, of "A". -/
theorem subscription_flag_invariant_witness :
    (⟨some name_A, 1⟩ : app_t).default_sink.isSome = true :=
  (subscription_flag_invariant [.state .READY, .server_info name_A true] ⟨some name_A, 1⟩
    [[.pa_context_get_server_info .server_info],
     [.pa_context_set_subscribe_callback .subscription_event,
      .pa_context_subscribe 0x81 .success,
      .pa_context_get_sink_info_by_name name_A .sink_info]]
    (by decide) (by decide)).2.1 rfl

/-- C17: in every state and for every argument, `state_callback`,
`subscription_event_callback`, `success_callback` and `sink_info_callback` (which is
defined whenever end-of-results is set or a default name is stored) return the state,
`default_sink` and `is_subscribed`, exactly as it was; `server_info_callback` is the one
callback that changes it: from the initial state the report of "A" sets both fields. -/
theorem single_writer (app : app_t) :
    (∀ s, (state_callback app s).1 = app) ∧
    (∀ event index, (subscription_event_callback app event index).1 = app) ∧
    (∀ success, (success_callback app success).1 = app) ∧
    (∀ info eol app1 out, sink_info_callback app info eol = some (app1, out) → app1 = app) ∧
    (∀ info eol, eol ≠ 0 ∨ app.default_sink.isSome = true →
      (sink_info_callback app info eol).isSome = true) ∧
    (server_info_callback initial_app name_A true).1 = ⟨some name_A, 1⟩ := by
  refine ⟨?_, ?_, ?_, ?_, ?_, ?_⟩
  · intro s
    cases s <;> rfl
  · intro event index
    exact subscription_event_callback_state app event index
  · intro success
    unfold success_callback
    split_ifs <;> rfl
  · intro info eol app1 out h
    exact sink_info_callback_state app info eol app1 out h
  · intro info eol h
    exact sink_info_callback_defined app info eol h
  · decide

/-- Witness of `single_writer`: the snapshot of "A" at amplitude 32768 with default "A". -/
theorem single_writer_witness :
    (sink_info_callback ⟨some name_A, 1⟩ snapshot_A_50 0).isSome = true :=
  (single_writer ⟨some name_A, 1⟩).2.2.2.2.1 snapshot_A_50 0 (Or.inr rfl)

/-! ## Replacement of the stored name -/

/-- C18 (as stated, refuted): with "A" stored, a report of "B" in which `malloc` fails
leaves no name stored: the old buffer has been freed and `default_sink` holds the null
result of `malloc`. -/
theorem atomic_replacement_alloc_failure_counterexample :
    server_info_callback ⟨some name_A, 1⟩ name_B false =
      (⟨none, 1⟩,
        [.fprintf_stderr "Could not allocate memory for sink name\n", .pa_mainloop_quit 1]) := by
  decide

/-- C18 (amended): in every state with a stored default name `d`, after a call of
`server_info_callback` reporting `c` in which allocation succeeds the stored name is
either `d` or the complete string `c`; it is `d` whenever the name is found unchanged,
whether or not allocation would succeed; and when the name is not found unchanged and
allocation fails the stored name is unset and the call requests termination with
status 1. -/
theorem atomic_replacement (app : app_t) (d c : CStr) (hd : app.default_sink = some d) :
    ((server_info_callback app c true).1.default_sink = some d ∨
      (server_info_callback app c true).1.default_sink = some c) ∧
    (∀ malloc_ok, default_sink_unchanged app c = true →
      (server_info_callback app c malloc_ok).1.default_sink = some d) ∧
    (default_sink_unchanged app c = false →
      (server_info_callback app c false).1.default_sink = none ∧
      quit_requests (server_info_callback app c false).2 = [1]) := by
  have hsame : ∀ malloc_ok, default_sink_unchanged app c = true →
      (server_info_callback app c malloc_ok).1.default_sink = some d := by
    intro malloc_ok hu
    simp [server_info_callback, hu, hd]
  refine ⟨?_, hsame, ?_⟩
  · by_cases hu : default_sink_unchanged app c = true
    · left
      exact hsame true hu
    · right
      have hu0 : default_sink_unchanged app c = false := by simpa using hu
      rcases server_info_callback_accept app c hu0 with h1 | ⟨-, h1⟩ <;> rw [h1]
  · intro hu
    simp [server_info_callback, hu, quit_requests]

/-- Witness of `atomic_replacement`: default "A", reports of "A" and of "B". -/
theorem atomic_replacement_witness :
    (server_info_callback ⟨some name_A, 1⟩ name_A false).1.default_sink = some name_A ∧
    ((server_info_callback ⟨some name_A, 1⟩ name_B false).1.default_sink = none ∧
      quit_requests (server_info_callback ⟨some name_A, 1⟩ name_B false).2 = [1]) :=
  ⟨(atomic_replacement ⟨some name_A, 1⟩ name_A name_A rfl).2.1 false (by decide),
   (atomic_replacement ⟨some name_A, 1⟩ name_A name_B rfl).2.2 (by decide)⟩

/-! ## Presence of the stored name when a snapshot arrives -/

/-- C19: for every sequence of callbacks in which allocation succeeds, run from the
initial state: in the state reached by a run during which a device-state query has been
dispatched, `default_sink` is non-null, so `sink_info_callback` is defined there for
every snapshot; a query dispatched by a callback carries the name stored when that
callback returns; and a sequence in which every snapshot (end-of-results clear) comes
after the dispatch of some device-state query has a defined run: `strncmp` never
receives a null stored name. -/
theorem default_sink_present_for_queries (evs : List Event)
    (halloc : ∀ e ∈ evs, e.alloc_ok = true) :
    (∀ app outs, run initial_app evs = some (app, outs) → sink_queries outs.flatten ≠ [] →
      app.default_sink.isSome = true ∧
      ∀ info eol, (sink_info_callback app info eol).isSome = true) ∧
    (∀ app outs e app1 out, run initial_app evs = some (app, outs) →
      step app e = some (app1, out) →
      ∀ name ∈ sink_queries out, app1.default_sink = some name) ∧
    ((∀ pre info eol post, evs = pre ++ Event.sink_info info eol :: post → eol = 0 →
        ∀ app outs, run initial_app pre = some (app, outs) →
          sink_queries outs.flatten ≠ []) →
      (run initial_app evs).isSome = true) := by
  refine ⟨?_, ?_, ?_⟩
  · intro app outs hrun hq
    rcases run_reachable evs halloc app outs hrun with ⟨-, h2⟩ | ⟨-, h2⟩
    · exact absurd h2 hq
    · exact ⟨h2, fun info eol => sink_info_callback_defined app info eol (Or.inr h2)⟩
  · intro app outs e app1 out _ hstep
    exact step_query_name app e app1 out hstep
  · intro hresp
    exact run_defined_of_responses evs halloc hresp

/-- Witness of `default_sink_present_for_queries`: ready, then the first report, of "A",
which dispatches the query for "A". -/
theorem default_sink_present_for_queries_witness :
    (⟨some name_A, 1⟩ : app_t).default_sink.isSome = true ∧
    (sink_info_callback ⟨some name_A, 1⟩ snapshot_A_50 0).isSome = true :=
  (fun h => ⟨h.1, h.2 snapshot_A_50 0⟩) <| (default_sink_present_for_queries [.state .READY, .server_info name_A true]
    (by decide)).1 ⟨some name_A, 1⟩
    [[.pa_context_get_server_info .server_info],
     [.pa_context_set_subscribe_callback .subscription_event,
      .pa_context_subscribe 0x81 .success,
      .pa_context_get_sink_info_by_name name_A .sink_info]]
    (by decide) (by decide)

/-! ## Monotonicity of the percentage -/

theorem round_half_even_mono (a b : Nat) (h : a ≤ b) :
    round_half_even (a * 100) 65536 ≤ round_half_even (b * 100) 65536 := by
  rcases Nat.eq_or_lt_of_le h with rfl | hlt
  · exact le_refl _
  · obtain ⟨ha, -, -⟩ := round_half_even_spec a
    obtain ⟨hb, -, -⟩ := round_half_even_spec b
    rw [abs_le] at ha hb
    have hab : (a : ℚ) + 1 ≤ b := by exact_mod_cast hlt
    have hx : 100 * (a : ℚ) / 65536 < 100 * (b : ℚ) / 65536 := by
      rw [div_lt_div_iff_of_pos_right (by norm_num)]
      linarith
    have hq : (round_half_even (a * 100) 65536 : ℚ) < round_half_even (b * 100) 65536 + 1 := by
      linarith [ha.2, hb.1]
    have hn : round_half_even (a * 100) 65536 < round_half_even (b * 100) 65536 + 1 := by
      exact_mod_cast hq
    omega

/-- C20: for any two accepted snapshots with averaged amplitudes `a ≤ b`, the integer
percentage `sink_info_callback` prints for `a` is less than or equal to the one it prints
for `b`; nothing clamps the value: an amplitude of `PA_VOLUME_NORM` = 65536 or more
prints 100 or more, and one of 65864 or more (a value of at least 100.5) prints more
than 100. -/
theorem percentage_monotone (app : app_t) (d : CStr) (info_a info_b : pa_sink_info)
    (hd : app.default_sink = some d)
    (hma : strncmp d.bytes info_a.name.bytes SINK_NAME_MAX = 0)
    (hmb : strncmp d.bytes info_b.name.bytes SINK_NAME_MAX = 0)
    (hle : info_a.volume_avg ≤ info_b.volume_avg) :
    ∃ pa pb : Nat,
      sink_info_callback app info_a 0 = some (app,
        [.printf_stdout ("volume = " ++ toString pa ++ " muted = " ++ toString info_a.mute
            ++ "\n"),
         .fflush_stdout]) ∧
      sink_info_callback app info_b 0 = some (app,
        [.printf_stdout ("volume = " ++ toString pb ++ " muted = " ++ toString info_b.mute
            ++ "\n"),
         .fflush_stdout]) ∧
      pa ≤ pb ∧
      (PA_VOLUME_NORM ≤ info_a.volume_avg → 100 ≤ pa) ∧
      (65864 ≤ info_a.volume_avg → 100 < pa) := by
  refine ⟨round_half_even (info_a.volume_avg * 100) 65536,
    round_half_even (info_b.volume_avg * 100) 65536,
    sink_info_callback_match app d info_a hd hma,
    sink_info_callback_match app d info_b hd hmb,
    round_half_even_mono _ _ hle, ?_, ?_⟩
  · intro hnorm
    have h100 : round_half_even (65536 * 100) 65536 = 100 := by decide
    rw [← h100]
    exact round_half_even_mono _ _ hnorm
  · intro hbig
    have h101 : round_half_even (65864 * 100) 65536 = 101 := by decide
    have := round_half_even_mono _ _ hbig
    omega

/-- Witness of `percentage_monotone`: amplitudes 32768 and 52429 of device "A". -/
theorem percentage_monotone_witness :
    ∃ pa pb : Nat,
      sink_info_callback ⟨some name_A, 1⟩ snapshot_A_50 0 = some (⟨some name_A, 1⟩,
        [.printf_stdout ("volume = " ++ toString pa ++ " muted = " ++
            toString snapshot_A_50.mute ++ "\n"),
         .fflush_stdout]) ∧
      sink_info_callback ⟨some name_A, 1⟩ snapshot_A_80 0 = some (⟨some name_A, 1⟩,
        [.printf_stdout ("volume = " ++ toString pb ++ " muted = " ++
            toString snapshot_A_80.mute ++ "\n"),
         .fflush_stdout]) ∧
      pa ≤ pb ∧
      (PA_VOLUME_NORM ≤ snapshot_A_50.volume_avg → 100 ≤ pa) ∧
      (65864 ≤ snapshot_A_50.volume_avg → 100 < pa) :=
  percentage_monotone ⟨some name_A, 1⟩ name_A snapshot_A_50 snapshot_A_80 rfl
    (by decide) (by decide) (by decide)

end PaVolumeWatcher
